import Mathlib

/-!
Verification of the Humanivio API request pipeline (src/server.js, with the
earlier handler revision kept at src/unnamed/part_000).

The JavaScript handler is embedded shallowly:
* `jsTrim` models `String.prototype.trim` and `jsSplitWs` models
  `String.prototype.split(/\s+/)` (including the JS quirks: splitting the
  empty string yields one empty segment, and leading/trailing separator runs
  produce empty segments);
* request bodies are JSON values (`JSVal`), so truthiness and the TypeError
  thrown by calling `trim` on a non-string can be expressed;
* the upstream OpenAI call is an oracle value (`UpstreamResult`): either a
  completion whose first message content is an optional string, or a failure
  carrying the optional `error.code` field inspected by the catch block;
* the rate limiter from the external `rate-limiter-flexible` package is
  modelled from the spec (its source is not part of this repository).
-/

/-- Character class of the JavaScript `\s` regex class and of the set trimmed
by `String.prototype.trim` (whitespace plus line terminators). -/
def isWs (c : Char) : Bool :=
  c.toNat = 0x9 || c.toNat = 0xA || c.toNat = 0xB || c.toNat = 0xC ||
  c.toNat = 0xD || c.toNat = 0x20 || c.toNat = 0xA0 || c.toNat = 0x1680 ||
  (0x2000 ≤ c.toNat && c.toNat ≤ 0x200A) || c.toNat = 0x2028 ||
  c.toNat = 0x2029 || c.toNat = 0x202F || c.toNat = 0x205F ||
  c.toNat = 0x3000 || c.toNat = 0xFEFF

/-- Drop leading and trailing whitespace from a character list, as JS
`String.prototype.trim` does. -/
def trimList (l : List Char) : List Char :=
  ((l.dropWhile isWs).reverse.dropWhile isWs).reverse

/-- JS `text.trim()`. -/
def jsTrim (s : String) : String := String.mk (trimList s.data)

/-- Worker for `jsSplitWs`.  The second argument is `some acc` while a
(possibly empty) segment `acc` is being accumulated and `none` while inside
a run of separator whitespace (the run was already closed by emitting the
previous segment). -/
def splitWsAux : List Char → Option (List Char) → List (List Char)
  | [], none => [[]]
  | [], some acc => [acc.reverse]
  | c :: cs, none =>
    if isWs c then splitWsAux cs none
    else splitWsAux cs (some [c])
  | c :: cs, some acc =>
    if isWs c then acc.reverse :: splitWsAux cs none
    else splitWsAux cs (some (c :: acc))

/-- JS `s.split(/\s+/)`: segments between maximal whitespace runs.  A leading
run yields a leading empty segment, a trailing run a trailing empty segment,
and `"".split` yields one empty segment. -/
def jsSplitWs (s : String) : List String :=
  (splitWsAux s.data (some [])).map String.mk

/-- Worker for `wsTokenCount`: counts maximal non-whitespace runs; the flag
records whether the previous character belonged to a run. -/
def tokCountAux : List Char → Bool → Nat
  | [], _ => 0
  | c :: cs, inTok =>
    if isWs c then tokCountAux cs false
    else (if inTok then 0 else 1) + tokCountAux cs true

/-- The number of whitespace-delimited tokens of a string, the notion the
spec uses for word counts. -/
def wsTokenCount (s : String) : Nat := tokCountAux s.data false

/-- True when the list does not end with a whitespace character. -/
def noTrailWs : List Char → Bool
  | [] => true
  | [c] => !isWs c
  | _ :: c :: cs => noTrailWs (c :: cs)

theorem splitWsAux_cons_some (c : Char) (cs acc : List Char) :
    splitWsAux (c :: cs) (some acc) =
      if isWs c then acc.reverse :: splitWsAux cs none
      else splitWsAux cs (some (c :: acc)) := rfl

theorem splitWsAux_cons_none (c : Char) (cs : List Char) :
    splitWsAux (c :: cs) none =
      if isWs c then splitWsAux cs none else splitWsAux cs (some [c]) := rfl

theorem tokCountAux_cons (c : Char) (cs : List Char) (b : Bool) :
    tokCountAux (c :: cs) b =
      if isWs c then tokCountAux cs false
      else (if b then 0 else 1) + tokCountAux cs true := rfl

theorem noTrail_tail (c : Char) (cs : List Char) (hne : cs ≠ [])
    (h : noTrailWs (c :: cs) = true) : noTrailWs cs = true := by
  match cs, hne with
  | c' :: cs', _ => exact h

theorem noTrail_append_singleton (c : Char) :
    ∀ xs : List Char, noTrailWs (xs ++ [c]) = !isWs c := by
  intro xs
  induction xs with
  | nil => simp [noTrailWs]
  | cons x xs ih =>
    cases xs with
    | nil => simp [noTrailWs]
    | cons y ys =>
      simpa [noTrailWs] using ih

theorem head_dropWhile_ws :
    ∀ (l : List Char) (c : Char) (cs : List Char),
      List.dropWhile isWs l = c :: cs → isWs c = false := by
  intro l
  induction l with
  | nil => intro c cs h; simp [List.dropWhile] at h
  | cons a l ih =>
    intro c cs h
    cases ha : isWs a with
    | true =>
      rw [List.dropWhile_cons, ha] at h
      simp at h
      exact ih c cs h
    | false =>
      rw [List.dropWhile_cons, ha] at h
      simp at h
      rw [← h.1]
      exact ha

theorem dropWhile_append_nonws (c : Char) (hc : isWs c = false) :
    ∀ xs : List Char, ∃ ys, List.dropWhile isWs (xs ++ [c]) = ys ++ [c] := by
  intro xs
  induction xs with
  | nil =>
    refine ⟨[], ?_⟩
    simp [List.dropWhile, hc]
  | cons x xs ih =>
    cases hx : isWs x with
    | true =>
      obtain ⟨ys, hy⟩ := ih
      refine ⟨ys, ?_⟩
      simp [List.dropWhile_cons, hx, hy]
    | false =>
      refine ⟨x :: xs, ?_⟩
      simp [List.dropWhile_cons, hx]

theorem trim_noTrail (l : List Char) : noTrailWs (trimList l) = true := by
  unfold trimList
  cases hm : List.dropWhile isWs (List.dropWhile isWs l).reverse with
  | nil => simp [noTrailWs]
  | cons d m' =>
    have hd : isWs d = false := head_dropWhile_ws _ d m' hm
    simp [List.reverse_cons, noTrail_append_singleton, hd]

theorem trim_head (l : List Char) (c : Char) (cs : List Char)
    (h : trimList l = c :: cs) : isWs c = false := by
  unfold trimList at h
  cases hk : List.dropWhile isWs l with
  | nil => rw [hk] at h; simp at h
  | cons a k' =>
    have ha : isWs a = false := head_dropWhile_ws l a k' hk
    rw [hk, List.reverse_cons] at h
    obtain ⟨ys, hy⟩ := dropWhile_append_nonws a ha k'.reverse
    rw [hy, List.reverse_append] at h
    simp at h
    rw [← h.1]
    exact ha

theorem splitWs_tok_combined :
    ∀ l : List Char, noTrailWs l = true →
      ((∀ acc, (splitWsAux l (some acc)).length = 1 + tokCountAux l true) ∧
       (l ≠ [] → (splitWsAux l none).length = tokCountAux l false)) := by
  intro l
  induction l with
  | nil =>
    intro _
    constructor
    · intro acc; simp [splitWsAux, tokCountAux]
    · intro h; exact absurd rfl h
  | cons c cs ih =>
    intro h
    cases hc : isWs c with
    | true =>
      have hcs_ne : cs ≠ [] := by
        intro e; subst e; simp [noTrailWs, hc] at h
      have hcs : noTrailWs cs = true := noTrail_tail c cs hcs_ne h
      obtain ⟨ih1, ih2⟩ := ih hcs
      have h2 := ih2 hcs_ne
      constructor
      · intro acc
        rw [splitWsAux_cons_some, if_pos hc, tokCountAux_cons, if_pos hc]
        simp [h2, Nat.add_comm]
      · intro _
        rw [splitWsAux_cons_none, if_pos hc, tokCountAux_cons, if_pos hc, h2]
    | false =>
      have hcf : ¬ isWs c = true := by simp [hc]
      cases cs with
      | nil =>
        constructor
        · intro acc
          rw [splitWsAux_cons_some, if_neg hcf, tokCountAux_cons, if_neg hcf]
          simp [splitWsAux, tokCountAux]
        · intro _
          rw [splitWsAux_cons_none, if_neg hcf, tokCountAux_cons, if_neg hcf]
          simp [splitWsAux, tokCountAux]
      | cons c' cs' =>
        have hcs : noTrailWs (c' :: cs') = true := noTrail_tail c _ (by simp) h
        obtain ⟨ih1, ih2⟩ := ih hcs
        constructor
        · intro acc
          rw [splitWsAux_cons_some, if_neg hcf, tokCountAux_cons, if_neg hcf,
            ih1 (c :: acc)]
          simp
        · intro _
          rw [splitWsAux_cons_none, if_neg hcf, tokCountAux_cons, if_neg hcf,
            ih1 [c]]
          simp

theorem jsTrim_data (s : String) : (jsTrim s).data = trimList s.data := rfl

theorem trimList_ne_of_jsTrim (s : String) (h : jsTrim s ≠ "") :
    trimList s.data ≠ [] := by
  intro e
  apply h
  unfold jsTrim
  rw [e]

/-- For a non-empty trimmed string, the length of the JS `split(/\s+/)`
result (the handler's `wordCount`) is exactly the whitespace-token count. -/
theorem wordCount_eq_tokenCount (s : String) (h : jsTrim s ≠ "") :
    (jsSplitWs (jsTrim s)).length = wsTokenCount (jsTrim s) := by
  have hne : trimList s.data ≠ [] := trimList_ne_of_jsTrim s h
  unfold jsSplitWs wsTokenCount
  rw [jsTrim_data, List.length_map]
  cases htl : trimList s.data with
  | nil => exact absurd htl hne
  | cons c cs =>
    have hc : isWs c = false := trim_head s.data c cs htl
    have hnt : noTrailWs (c :: cs) = true := by
      rw [← htl]; exact trim_noTrail s.data
    have hcf : ¬ isWs c = true := by simp [hc]
    cases cs with
    | nil =>
      rw [splitWsAux_cons_some, if_neg hcf, tokCountAux_cons, if_neg hcf]
      simp [splitWsAux, tokCountAux]
    | cons c' cs' =>
      have hcs : noTrailWs (c' :: cs') = true := noTrail_tail c _ (by simp) hnt
      obtain ⟨ih1, _⟩ := splitWs_tok_combined (c' :: cs') hcs
      rw [splitWsAux_cons_some, if_neg hcf, tokCountAux_cons, if_neg hcf,
        ih1 [c]]
      simp

/-- A JSON value as it can appear in the parsed request body (plus
`vUndef` for an absent `text` property).  `vObj` and `vArr` stand for any
object or array value; the handler never looks inside them. -/
inductive JSVal where
  | vUndef
  | vNull
  | vBool (b : Bool)
  | vNum (n : Int)
  | vStr (s : String)
  | vObj
  | vArr
deriving DecidableEq

/-- JavaScript truthiness of a `JSVal` (`NaN` is covered by `vNum 0`). -/
def truthy : JSVal → Bool
  | .vUndef => false
  | .vNull => false
  | .vBool b => b
  | .vNum n => if n = 0 then false else true
  | .vStr s => if s = "" then false else true
  | .vObj => true
  | .vArr => true

/-- Outcome of the awaited `openai.chat.completions.create` call: a
completion whose first choice's message content is an optional string, or a
thrown error carrying the optional `error.code` field the catch block
inspects. -/
inductive UpstreamResult where
  | success (content : Option String)
  | failure (code : Option String)
deriving DecidableEq

/-- Payload of a successful humanize response. -/
structure HumanizeOk where
  humanizedText : String
  originalWordCount : Nat
  humanizedWordCount : Nat
deriving DecidableEq

/-- The JSON body of a response. -/
inductive RespBody where
  | err (msg : String)
  | ok (payload : HumanizeOk)
  | health (status service timestamp : String)
  | banner (msg : String)
deriving DecidableEq

/-- An HTTP response: status code and JSON body. -/
structure Resp where
  status : Nat
  body : RespBody
deriving DecidableEq

def missingTextMsg : String := "Please provide text to humanize"

def wordLimitMsg : String := "Text exceeds 1000 words limit"

def genericErrorMsg : String := "Failed to humanize text. Please try again."

def bannerMsg : String := "✅ Humanivio API is live and ready to humanize your text!"

def limitMsg : String :=
  "Free daily limit reached. Please try again tomorrow or consider upgrading for higher limits."

/-- The catch block of both handler versions: dispatch on `error.code`. -/
def errorMessageFor (code : Option String) : String :=
  if code = some "insufficient_quota" then
    "API quota exceeded. Please check your OpenAI account."
  else if code = some "invalid_api_key" then
    "Invalid API key. Please check your configuration."
  else genericErrorMsg

/-- The success path of the current handler (src/server.js lines 93-100):
`humanizedText = completion?.choices?.[0]?.message?.content || ''`, the
response text is `humanizedText.trim()`, and the rewritten word count is
`humanizedText ? humanizedText.trim().split(/\s+/).length : 0`. -/
def humanizeSuccess (wordCount : Nat) (content : Option String) : Resp :=
  let ht := content.getD ""
  ⟨200, .ok ⟨jsTrim ht, wordCount,
    if ht = "" then 0 else (jsSplitWs (jsTrim ht)).length⟩⟩

/-- The part of the current handler after validation: await the upstream
call, shape the response on success, map errors in the catch block. -/
def humanizeUpstream (wordCount : Nat) (u : UpstreamResult) : Resp :=
  match u with
  | .failure code => ⟨500, .err (errorMessageFor code)⟩
  | .success content => humanizeSuccess wordCount content

/-- The POST /api/humanize handler of src/server.js (lines 47-122).
`!text` is JS truthiness; calling `trim` on a truthy non-string throws a
TypeError which the catch block turns into the generic 500 (the thrown
error has no `code` field). -/
def humanizeHandler (text : JSVal) (u : UpstreamResult) : Resp :=
  if truthy text = true then
    match text with
    | .vStr s =>
      if jsTrim s = "" then ⟨400, .err missingTextMsg⟩
      else if 1000 < (jsSplitWs (jsTrim s)).length then ⟨400, .err wordLimitMsg⟩
      else humanizeUpstream ((jsSplitWs (jsTrim s)).length) u
    | _ => ⟨500, .err genericErrorMsg⟩
  else ⟨400, .err missingTextMsg⟩

/-- The POST /api/humanize handler of the earlier revision
(src/unnamed/part_000 lines 39-114).  It has no `|| ''` fallback: a missing
message content makes `humanizedText.split(/\s+/)` throw, which the catch
block maps to the generic 500; a present content is returned untrimmed and
its word count is `humanizedText.split(/\s+/).length` without trimming. -/
def humanizeHandlerV0 (text : JSVal) (u : UpstreamResult) : Resp :=
  if truthy text = true then
    match text with
    | .vStr s =>
      if jsTrim s = "" then ⟨400, .err missingTextMsg⟩
      else if 1000 < (jsSplitWs (jsTrim s)).length then ⟨400, .err wordLimitMsg⟩
      else
        match u with
        | .failure code => ⟨500, .err (errorMessageFor code)⟩
        | .success none => ⟨500, .err genericErrorMsg⟩
        | .success (some ht) =>
          ⟨200, .ok ⟨ht, (jsSplitWs (jsTrim s)).length, (jsSplitWs ht).length⟩⟩
    | _ => ⟨500, .err genericErrorMsg⟩
  else ⟨400, .err missingTextMsg⟩

/-- Modelled from the spec: the per-client record of the Quota Tracker
(spec section 3, ClientQuotaRecord).  The backing implementation,
`RateLimiterMemory` from the external rate-limiter-flexible package, is not
part of this repository; only its configuration (capacity, 24-hour
duration) and its caller are in src/server.js. -/
structure QuotaRecord where
  count : Nat
  windowStart : Nat
deriving DecidableEq

/-- Modelled from the spec: the in-memory store of per-client quota
records, keyed by the client's network address. -/
structure LimiterState where
  records : String → Option QuotaRecord

/-- The configured window duration: `24 * 60 * 60` seconds
(src/server.js line 21). -/
def windowSeconds : Nat := 24 * 60 * 60

/-- Outcome of a quota admission check. -/
inductive GateResult where
  | allowed
  | limited
deriving DecidableEq

/-- Modelled from the spec (section 4.1): the record governing a client at
time `now` — a fresh zero record when the client is unseen or its previous
window's 24 hours have elapsed, otherwise the stored record. -/
def activeRecord (st : LimiterState) (key : String) (now : Nat) : QuotaRecord :=
  match st.records key with
  | none => ⟨0, now⟩
  | some r => if r.windowStart + windowSeconds ≤ now then ⟨0, now⟩ else r

def setRecord (st : LimiterState) (key : String) (r : QuotaRecord) :
    LimiterState :=
  ⟨fun k => if k = key then some r else st.records k⟩

/-- Modelled from the spec (section 4.1): `rateLimiter.consume(key)` —
increment the consumed-count of the client's current window and admit,
or reject without incrementing once the count has reached capacity within
the still-active window. -/
def consume (st : LimiterState) (cap : Nat) (key : String) (now : Nat) :
    GateResult × LimiterState :=
  let r := activeRecord st key now
  if r.count < cap then
    (.allowed, setRecord st key ⟨r.count + 1, r.windowStart⟩)
  else
    (.limited, st)

/-- An inbound request, as far as routing is concerned. -/
inductive Request where
  | getRoot
  | getHealth
  | postHumanize (text : JSVal)
deriving DecidableEq

/-- Routing below the rate-limiting middleware. `nowIso` stands for the
`new Date().toISOString()` value of the health handler. -/
def routeAfterGate (req : Request) (u : UpstreamResult) (nowIso : String) :
    Resp :=
  match req with
  | .getRoot => ⟨200, .banner bannerMsg⟩
  | .getHealth => ⟨200, .health "OK" "Humanivio API" nowIso⟩
  | .postHumanize text => humanizeHandler text u

/-- One request through the src/server.js middleware stack: the root route
is registered before the rate-limiting middleware (line 29 vs line 34) and
is served unconditionally; every other route sits behind the quota gate,
which responds 429 on rejection. -/
def serverHandle (cap : Nat) (st : LimiterState) (ip : String) (now : Nat)
    (req : Request) (u : UpstreamResult) (nowIso : String) :
    Resp × LimiterState :=
  match req with
  | .getRoot => (⟨200, .banner bannerMsg⟩, st)
  | _ =>
    match consume st cap ip now with
    | (.limited, st') => (⟨429, .err limitMsg⟩, st')
    | (.allowed, st') => (routeAfterGate req u nowIso, st')

/-- A sequence of POST /api/humanize requests (time, body) from one client,
threaded through the limiter state. -/
def serverRun (cap : Nat) (ip : String) (u : UpstreamResult)
    (nowIso : String) : LimiterState → List (Nat × JSVal) →
    List Resp × LimiterState
  | st, [] => ([], st)
  | st, (t, body) :: rest =>
    let out := serverHandle cap st ip t (.postHumanize body) u nowIso
    let outs := serverRun cap ip u nowIso out.2 rest
    (out.1 :: outs.1, outs.2)

theorem jsTrim_empty : jsTrim "" = "" := rfl

theorem str_ne_of_trim_ne (s : String) (h : jsTrim s ≠ "") : s ≠ "" :=
  fun e => h (by rw [e]; rfl)

theorem humanizeUpstream_status (wc : Nat) (u : UpstreamResult) :
    (humanizeUpstream wc u).status = 500 ∨ (humanizeUpstream wc u).status = 200 := by
  cases u with
  | failure code => left; rfl
  | success content => right; rfl

/-- C1: POST /api/humanize validation succeeds exactly when the submitted
text, after trimming whitespace, is non-empty with at most 1000
whitespace-delimited tokens; an absent or whitespace-only text gets 400
with the missing-text message, more than 1000 tokens gets 400 with the
word-limit message, and in both failure cases the response is the same for
every upstream oracle (no upstream call is made). -/
theorem c1_validation (str : String) (u : UpstreamResult) :
    (∀ u', humanizeHandler .vUndef u' = ⟨400, .err missingTextMsg⟩) ∧
    (jsTrim str = "" →
      ∀ u', humanizeHandler (.vStr str) u' = ⟨400, .err missingTextMsg⟩) ∧
    (jsTrim str ≠ "" → 1000 < wsTokenCount (jsTrim str) →
      ∀ u', humanizeHandler (.vStr str) u' = ⟨400, .err wordLimitMsg⟩) ∧
    (jsTrim str ≠ "" → wsTokenCount (jsTrim str) ≤ 1000 →
      humanizeHandler (.vStr str) u =
        humanizeUpstream (wsTokenCount (jsTrim str)) u ∧
      (humanizeHandler (.vStr str) u).status ≠ 400) := by
  refine ⟨fun u' => rfl, ?_, ?_, ?_⟩
  · intro he u'
    by_cases hs : str = ""
    · subst hs; rfl
    · simp [humanizeHandler, truthy, hs, he]
  · intro he hcnt u'
    have hs : str ≠ "" := str_ne_of_trim_ne str he
    rw [← wordCount_eq_tokenCount str he] at hcnt
    simp [humanizeHandler, truthy, hs, he, hcnt]
  · intro he hcnt
    have hs : str ≠ "" := str_ne_of_trim_ne str he
    have hwc := wordCount_eq_tokenCount str he
    rw [← hwc] at hcnt
    have hred : humanizeHandler (.vStr str) u =
        humanizeUpstream ((jsSplitWs (jsTrim str)).length) u := by
      simp [humanizeHandler, truthy, hs, he, Nat.not_lt.mpr hcnt]
    constructor
    · rw [hred, hwc]
    · rw [hred]
      rcases humanizeUpstream_status ((jsSplitWs (jsTrim str)).length) u with
        h3 | h3 <;> omega

theorem c1_witness :
    humanizeHandler (.vStr "   ") (.failure (some "boom")) =
      ⟨400, .err missingTextMsg⟩ ∧
    humanizeHandler (.vStr "a b c") (.failure (some "boom")) =
      humanizeUpstream (wsTokenCount (jsTrim "a b c")) (.failure (some "boom")) := by
  refine ⟨?_, ?_⟩
  · exact (c1_validation "   " (.failure (some "boom"))).2.1 (by decide) _
  · exact ((c1_validation "a b c" (.failure (some "boom"))).2.2.2
      (by decide) (by decide)).1

/-- C5: every successful POST /api/humanize response reports
`originalWordCount` equal to the whitespace-token count of the trimmed
submitted text. -/
theorem c5_originalWordCount (str : String) (content : Option String)
    (h1 : jsTrim str ≠ "") (h2 : (jsSplitWs (jsTrim str)).length ≤ 1000) :
    ∃ r, humanizeHandler (.vStr str) (.success content) = ⟨200, .ok r⟩ ∧
      r.originalWordCount = wsTokenCount (jsTrim str) := by
  have hs : str ≠ "" := str_ne_of_trim_ne str h1
  refine ⟨⟨jsTrim (content.getD ""), (jsSplitWs (jsTrim str)).length,
    if content.getD "" = "" then 0
    else (jsSplitWs (jsTrim (content.getD ""))).length⟩, ?_, ?_⟩
  · simp [humanizeHandler, truthy, hs, h1, Nat.not_lt.mpr h2,
      humanizeUpstream, humanizeSuccess]
  · exact wordCount_eq_tokenCount str h1

theorem c5_witness :
    ∃ r, humanizeHandler (.vStr "The quick brown fox.") (.success (some "ok")) =
        ⟨200, .ok r⟩ ∧
      r.originalWordCount = wsTokenCount (jsTrim "The quick brown fox.") :=
  c5_originalWordCount "The quick brown fox." (some "ok") (by decide) (by decide)

/-- C6 counterexample: the claim asserts that BOTH observed handler
versions answer a contentless upstream success with HTTP 200 and an empty
`humanizedText`; in the earlier revision (src/unnamed/part_000) the missing
content makes `humanizedText.split` throw, so the response is the generic
500, not 200. -/
theorem c6_counterexample :
    humanizeHandlerV0 (.vStr "hello") (.success none) =
      ⟨500, .err genericErrorMsg⟩ ∧
    (humanizeHandlerV0 (.vStr "hello") (.success none)).status ≠ 200 := by
  exact ⟨by decide, by decide⟩

/-- C6 amended: in the current handler (src/server.js) an upstream success
with missing or empty message content yields HTTP 200 with `humanizedText`
empty and `humanizedWordCount` 0; the earlier revision
(src/unnamed/part_000) instead throws on missing content and answers the
generic 500, and answers empty-string content with HTTP 200 but
`humanizedWordCount` 1. -/
theorem c6_amended (str : String) (h1 : jsTrim str ≠ "")
    (h2 : (jsSplitWs (jsTrim str)).length ≤ 1000) :
    humanizeHandler (.vStr str) (.success none) =
      ⟨200, .ok ⟨"", (jsSplitWs (jsTrim str)).length, 0⟩⟩ ∧
    humanizeHandler (.vStr str) (.success (some "")) =
      ⟨200, .ok ⟨"", (jsSplitWs (jsTrim str)).length, 0⟩⟩ ∧
    humanizeHandlerV0 (.vStr str) (.success none) =
      ⟨500, .err genericErrorMsg⟩ ∧
    humanizeHandlerV0 (.vStr str) (.success (some "")) =
      ⟨200, .ok ⟨"", (jsSplitWs (jsTrim str)).length, 1⟩⟩ := by
  have hs : str ≠ "" := str_ne_of_trim_ne str h1
  refine ⟨?_, ?_, ?_, ?_⟩
  · simp [humanizeHandler, truthy, hs, h1, Nat.not_lt.mpr h2,
      humanizeUpstream, humanizeSuccess, jsTrim_empty]
  · simp [humanizeHandler, truthy, hs, h1, Nat.not_lt.mpr h2,
      humanizeUpstream, humanizeSuccess, jsTrim_empty]
  · simp [humanizeHandlerV0, truthy, hs, h1, Nat.not_lt.mpr h2]
  · simp [humanizeHandlerV0, truthy, hs, h1, Nat.not_lt.mpr h2]
    rfl

theorem c6_witness :
    humanizeHandler (.vStr "check this") (.success none) =
      ⟨200, .ok ⟨"", (jsSplitWs (jsTrim "check this")).length, 0⟩⟩ :=
  (c6_amended "check this" (by decide) (by decide)).1

/-- C7 counterexample: a whitespace-only upstream reply is truthy, so the
current handler computes `''.split(/\s+/).length = 1`, not the 0 claimed;
the response to upstream content consisting of one space is
`humanizedText = ""` with `humanizedWordCount = 1`. -/
theorem c7_counterexample :
    humanizeHandler (.vStr "hello") (.success (some " ")) =
      ⟨200, .ok ⟨"", 1, 1⟩⟩ ∧
    (humanizeHandler (.vStr "hello") (.success (some " "))).body ≠
      .ok ⟨"", 1, 0⟩ := by
  exact ⟨by decide, by decide⟩

/-- C7 amended: the response's `humanizedText` is the upstream text trimmed
of leading and trailing whitespace, and `humanizedWordCount` is 0 when the
upstream text is empty, 1 (not 0) when it is non-empty but whitespace-only,
and otherwise the whitespace-token count of the trimmed upstream text. -/
theorem c7_amended (str ht : String) (h1 : jsTrim str ≠ "")
    (h2 : (jsSplitWs (jsTrim str)).length ≤ 1000) :
    ∃ r, humanizeHandler (.vStr str) (.success (some ht)) = ⟨200, .ok r⟩ ∧
      r.humanizedText = jsTrim ht ∧
      r.humanizedWordCount =
        (if ht = "" then 0
         else if jsTrim ht = "" then 1 else wsTokenCount (jsTrim ht)) := by
  have hs : str ≠ "" := str_ne_of_trim_ne str h1
  refine ⟨⟨jsTrim ht, (jsSplitWs (jsTrim str)).length,
    if ht = "" then 0 else (jsSplitWs (jsTrim ht)).length⟩, ?_, rfl, ?_⟩
  · simp [humanizeHandler, truthy, hs, h1, Nat.not_lt.mpr h2,
      humanizeUpstream, humanizeSuccess]
  · by_cases he : ht = ""
    · simp [he]
    · rw [if_neg he, if_neg he]
      by_cases ht0 : jsTrim ht = ""
      · rw [if_pos ht0, ht0]
        rfl
      · rw [if_neg ht0]
        exact wordCount_eq_tokenCount ht ht0

theorem c7_witness :
    ∃ r, humanizeHandler (.vStr "alpha") (.success (some "  beta gamma ")) =
        ⟨200, .ok r⟩ ∧
      r.humanizedText = jsTrim "  beta gamma " ∧
      r.humanizedWordCount =
        (if "  beta gamma " = "" then 0
         else if jsTrim "  beta gamma " = "" then 1
         else wsTokenCount (jsTrim "  beta gamma ")) :=
  c7_amended "alpha" "  beta gamma " (by decide) (by decide)

/-- C8: an upstream failure makes both handler versions respond HTTP 500
with a message selected by the upstream-reported error code:
insufficient_quota and invalid_api_key get their dedicated messages, any
other failure the generic one. -/
theorem c8_error_mapping (str : String) (code : Option String)
    (h1 : jsTrim str ≠ "") (h2 : (jsSplitWs (jsTrim str)).length ≤ 1000) :
    humanizeHandler (.vStr str) (.failure code) =
      ⟨500, .err (errorMessageFor code)⟩ ∧
    humanizeHandlerV0 (.vStr str) (.failure code) =
      ⟨500, .err (errorMessageFor code)⟩ ∧
    errorMessageFor (some "insufficient_quota") =
      "API quota exceeded. Please check your OpenAI account." ∧
    errorMessageFor (some "invalid_api_key") =
      "Invalid API key. Please check your configuration." ∧
    (code ≠ some "insufficient_quota" → code ≠ some "invalid_api_key" →
      errorMessageFor code = genericErrorMsg) := by
  have hs : str ≠ "" := str_ne_of_trim_ne str h1
  refine ⟨?_, ?_, by decide, by decide, ?_⟩
  · simp [humanizeHandler, truthy, hs, h1, Nat.not_lt.mpr h2, humanizeUpstream]
  · simp [humanizeHandlerV0, truthy, hs, h1, Nat.not_lt.mpr h2]
  · intro ha hb
    simp [errorMessageFor, ha, hb]

theorem c8_witness :
    humanizeHandler (.vStr "words here") (.failure (some "insufficient_quota")) =
      ⟨500, .err (errorMessageFor (some "insufficient_quota"))⟩ :=
  (c8_error_mapping "words here" (some "insufficient_quota")
    (by decide) (by decide)).1

/-- C10: a truthy non-string `text` value makes `text.trim()` throw a
TypeError, which the catch block (the thrown error has no `code` field)
maps to the generic HTTP 500, not a 400 validation response. -/
theorem c10_nonstring (t : JSVal) (u : UpstreamResult)
    (htr : truthy t = true) (hns : ∀ s, t ≠ .vStr s) :
    humanizeHandler t u = ⟨500, .err genericErrorMsg⟩ := by
  cases t with
  | vUndef => simp [truthy] at htr
  | vNull => simp [truthy] at htr
  | vBool b =>
    cases b with
    | false => simp [truthy] at htr
    | true => rfl
  | vNum n =>
    simp only [humanizeHandler, htr]
    rfl
  | vStr s => exact absurd rfl (hns s)
  | vObj => rfl
  | vArr => rfl

theorem c10_witness :
    humanizeHandler (.vNum 5) (.success (some "ignored")) =
      ⟨500, .err genericErrorMsg⟩ :=
  c10_nonstring (.vNum 5) (.success (some "ignored")) (by decide)
    (fun s h => JSVal.noConfusion h)

theorem serverHandle_getHealth (cap : Nat) (st : LimiterState) (ip : String)
    (now : Nat) (u : UpstreamResult) (iso : String) :
    serverHandle cap st ip now .getHealth u iso =
      (match consume st cap ip now with
       | (.limited, st') => (⟨429, .err limitMsg⟩, st')
       | (.allowed, st') =>
         (⟨200, .health "OK" "Humanivio API" iso⟩, st')) := rfl

theorem serverHandle_postHumanize (cap : Nat) (st : LimiterState) (ip : String)
    (now : Nat) (body : JSVal) (u : UpstreamResult) (iso : String) :
    serverHandle cap st ip now (.postHumanize body) u iso =
      (match consume st cap ip now with
       | (.limited, st') => (⟨429, .err limitMsg⟩, st')
       | (.allowed, st') => (humanizeHandler body u, st')) := rfl

theorem consume_fresh (st : LimiterState) (cap : Nat) (ip : String) (t : Nat)
    (hrec : st.records ip = none) :
    consume st cap ip t =
      if 0 < cap then (.allowed, setRecord st ip ⟨1, t⟩)
      else (.limited, st) := by
  simp only [consume, activeRecord, hrec]

theorem consume_active (st : LimiterState) (cap : Nat) (ip : String) (t : Nat)
    (c t₀ : Nat) (hrec : st.records ip = some ⟨c, t₀⟩)
    (ht : t < t₀ + windowSeconds) :
    consume st cap ip t =
      if c < cap then (.allowed, setRecord st ip ⟨c + 1, t₀⟩)
      else (.limited, st) := by
  simp only [consume, activeRecord, hrec]
  rw [if_neg (show ¬ (t₀ + windowSeconds ≤ t) from by omega)]

theorem consume_expired (st : LimiterState) (cap : Nat) (ip : String) (t : Nat)
    (r : QuotaRecord) (hrec : st.records ip = some r)
    (ht : r.windowStart + windowSeconds ≤ t) :
    consume st cap ip t =
      if 0 < cap then (.allowed, setRecord st ip ⟨1, t⟩)
      else (.limited, st) := by
  simp only [consume, activeRecord, hrec]
  rw [if_pos ht]

theorem setRecord_lookup (st : LimiterState) (ip : String) (r : QuotaRecord) :
    (setRecord st ip r).records ip = some r := by
  simp [setRecord]

theorem humanize_status_ne_429 (t : JSVal) (u : UpstreamResult) :
    (humanizeHandler t u).status ≠ 429 := by
  unfold humanizeHandler
  split
  · split
    · next s htr =>
        split_ifs
        · decide
        · decide
        · rcases humanizeUpstream_status ((jsSplitWs (jsTrim s)).length) u with
            h3 | h3 <;> omega
    · decide
  · decide

theorem serverRun_invariant (cap : Nat) (ip : String) (u : UpstreamResult)
    (iso : String) (t₀ : Nat) :
    ∀ (reqs : List (Nat × JSVal)) (st : LimiterState) (c : Nat),
      st.records ip = some ⟨c, t₀⟩ → c ≤ cap →
      (∀ p ∈ reqs, p.1 < t₀ + windowSeconds) →
      ((serverRun cap ip u iso st reqs).1.length = reqs.length ∧
       (∀ i (hi : i < (serverRun cap ip u iso st reqs).1.length),
          (((serverRun cap ip u iso st reqs).1.get ⟨i, hi⟩).status = 429 ↔
            cap ≤ c + i)) ∧
       (serverRun cap ip u iso st reqs).2.records ip =
         some ⟨min (c + reqs.length) cap, t₀⟩) := by
  intro reqs
  induction reqs with
  | nil =>
    intro st c hrec hc _
    refine ⟨rfl, ?_, ?_⟩
    · intro i hi
      simp [serverRun] at hi
    · simpa [serverRun, Nat.min_eq_left hc] using hrec
  | cons p rest ih =>
    obtain ⟨t, body⟩ := p
    intro st c hrec hc htimes
    have ht : t < t₀ + windowSeconds := htimes (t, body) (List.mem_cons_self _ _)
    have htrest : ∀ q ∈ rest, q.1 < t₀ + windowSeconds :=
      fun q hq => htimes q (List.mem_cons_of_mem _ hq)
    have hcon := consume_active st cap ip t c t₀ hrec ht
    by_cases hlt : c < cap
    · rw [if_pos hlt] at hcon
      have hsh : serverHandle cap st ip t (.postHumanize body) u iso =
          (humanizeHandler body u, setRecord st ip ⟨c + 1, t₀⟩) := by
        rw [serverHandle_postHumanize, hcon]
      obtain ⟨ihlen, ihidx, ihrec⟩ :=
        ih (setRecord st ip ⟨c + 1, t₀⟩) (c + 1) (setRecord_lookup st ip _)
          hlt htrest
      have hout : serverRun cap ip u iso st ((t, body) :: rest) =
          (humanizeHandler body u ::
            (serverRun cap ip u iso (setRecord st ip ⟨c + 1, t₀⟩) rest).1,
           (serverRun cap ip u iso (setRecord st ip ⟨c + 1, t₀⟩) rest).2) := by
        simp [serverRun, hsh]
      rw [hout]
      refine ⟨?_, ?_, ?_⟩
      · simp [ihlen]
      · intro i hi
        cases i with
        | zero =>
          exact iff_of_false (humanize_status_ne_429 body u) (by omega)
        | succ j =>
          have hj : j <
              (serverRun cap ip u iso (setRecord st ip ⟨c + 1, t₀⟩) rest).1.length := by
            simpa using Nat.lt_of_succ_lt_succ hi
          have h2 := ihidx j hj
          have harith : c + 1 + j = c + (j + 1) := by omega
          rw [harith] at h2
          exact h2
      · simp only [List.length_cons]
        rw [show c + (rest.length + 1) = c + 1 + rest.length from by omega]
        exact ihrec
    · rw [if_neg hlt] at hcon
      have hge : cap ≤ c := Nat.le_of_not_lt hlt
      have hsh : serverHandle cap st ip t (.postHumanize body) u iso =
          (⟨429, .err limitMsg⟩, st) := by
        rw [serverHandle_postHumanize, hcon]
      obtain ⟨ihlen, ihidx, ihrec⟩ := ih st c hrec hc htrest
      have hout : serverRun cap ip u iso st ((t, body) :: rest) =
          ((⟨429, .err limitMsg⟩ : Resp) :: (serverRun cap ip u iso st rest).1,
           (serverRun cap ip u iso st rest).2) := by
        simp [serverRun, hsh]
      rw [hout]
      refine ⟨?_, ?_, ?_⟩
      · simp [ihlen]
      · intro i hi
        cases i with
        | zero =>
          exact iff_of_true rfl (by omega)
        | succ j =>
          have hj : j < (serverRun cap ip u iso st rest).1.length := by
            simpa using Nat.lt_of_succ_lt_succ hi
          have h2 := ihidx j hj
          exact iff_of_true (h2.mpr (by omega)) (by omega)
      · simp only [List.length_cons]
        rw [Nat.min_eq_right (show cap ≤ c + (rest.length + 1) from by omega)]
        rw [Nat.min_eq_right (show cap ≤ c + rest.length from by omega)] at ihrec
        exact ihrec

/-- C2: starting from an unseen client, a run of POST /api/humanize
requests all falling inside the first request's 24-hour window is admitted
exactly on its first `cap` requests; every later request of the run gets
HTTP 429, a rejection does not increment the stored consumed-count, and the
stored consumed-count never exceeds the capacity. -/
theorem c2_capacity (cap : Nat) (ip : String) (u : UpstreamResult)
    (iso : String) (st₀ : LimiterState) (t₀ : Nat) (body₀ : JSVal)
    (reqs : List (Nat × JSVal)) (hcap : 1 ≤ cap)
    (hfresh : st₀.records ip = none)
    (htimes : ∀ p ∈ reqs, t₀ ≤ p.1 ∧ p.1 < t₀ + windowSeconds) :
    (serverRun cap ip u iso st₀ ((t₀, body₀) :: reqs)).1.length =
      reqs.length + 1 ∧
    (∀ i (hi : i <
        (serverRun cap ip u iso st₀ ((t₀, body₀) :: reqs)).1.length),
      (((serverRun cap ip u iso st₀ ((t₀, body₀) :: reqs)).1.get
          ⟨i, hi⟩).status = 429 ↔ cap ≤ i)) ∧
    (serverRun cap ip u iso st₀ ((t₀, body₀) :: reqs)).2.records ip =
      some ⟨min (reqs.length + 1) cap, t₀⟩ ∧
    (∀ q, (serverRun cap ip u iso st₀ ((t₀, body₀) :: reqs)).2.records ip =
        some q → q.count ≤ cap) := by
  have hcon := consume_fresh st₀ cap ip t₀ hfresh
  rw [if_pos (show 0 < cap from by omega)] at hcon
  have hsh : serverHandle cap st₀ ip t₀ (.postHumanize body₀) u iso =
      (humanizeHandler body₀ u, setRecord st₀ ip ⟨1, t₀⟩) := by
    rw [serverHandle_postHumanize, hcon]
  obtain ⟨ihlen, ihidx, ihrec⟩ :=
    serverRun_invariant cap ip u iso t₀ reqs (setRecord st₀ ip ⟨1, t₀⟩) 1
      (setRecord_lookup st₀ ip _) hcap (fun q hq => (htimes q hq).2)
  have hout : serverRun cap ip u iso st₀ ((t₀, body₀) :: reqs) =
      (humanizeHandler body₀ u ::
        (serverRun cap ip u iso (setRecord st₀ ip ⟨1, t₀⟩) reqs).1,
       (serverRun cap ip u iso (setRecord st₀ ip ⟨1, t₀⟩) reqs).2) := by
    simp [serverRun, hsh]
  rw [hout]
  have hrecFinal :
      (serverRun cap ip u iso (setRecord st₀ ip ⟨1, t₀⟩) reqs).2.records ip =
        some ⟨min (reqs.length + 1) cap, t₀⟩ := by
    rw [show reqs.length + 1 = 1 + reqs.length from by omega]
    exact ihrec
  refine ⟨?_, ?_, hrecFinal, ?_⟩
  · simp [ihlen]
  · intro i hi
    cases i with
    | zero =>
      exact iff_of_false (humanize_status_ne_429 body₀ u) (by omega)
    | succ j =>
      have hj : j <
          (serverRun cap ip u iso (setRecord st₀ ip ⟨1, t₀⟩) reqs).1.length := by
        simpa using Nat.lt_of_succ_lt_succ hi
      have h2 := ihidx j hj
      rw [show 1 + j = j + 1 from by omega] at h2
      exact h2
  · intro q hq
    rw [hrecFinal] at hq
    have hq2 : (⟨min (reqs.length + 1) cap, t₀⟩ : QuotaRecord) = q :=
      Option.some.inj hq
    rw [← hq2]
    exact Nat.min_le_right _ _

theorem c2_witness :
    (serverRun 1 "198.51.100.7" (.success (some "ok"))
        "2026-02-03T04:05:06.000Z" ⟨fun _ => none⟩
        ((0, .vStr "hi") :: [(9, .vStr "again")])).2.records "198.51.100.7" =
      some ⟨min ([(9, (JSVal.vStr "again"))].length + 1) 1, 0⟩ :=
  (c2_capacity 1 "198.51.100.7" (.success (some "ok"))
    "2026-02-03T04:05:06.000Z" ⟨fun _ => none⟩ 0 (.vStr "hi")
    [(9, .vStr "again")] (by decide) rfl (by decide)).2.2.1

/-- C3: once a client's 24-hour window has fully elapsed, its next request
starts a fresh window (window-start equal to the request time, counter
reset and then incremented to 1 by the admission) and is admitted, whatever
the count of the expired record was. -/
theorem c3_window_reset (cap : Nat) (st : LimiterState) (ip : String)
    (now : Nat) (r : QuotaRecord) (hcap : 1 ≤ cap)
    (hrec : st.records ip = some r)
    (helapsed : r.windowStart + windowSeconds ≤ now) :
    consume st cap ip now = (.allowed, setRecord st ip ⟨1, now⟩) ∧
    (consume st cap ip now).2.records ip = some ⟨1, now⟩ := by
  have h := consume_expired st cap ip now r hrec helapsed
  rw [if_pos (show 0 < cap from by omega)] at h
  refine ⟨h, ?_⟩
  rw [h]
  exact setRecord_lookup st ip _

theorem c3_witness :
    consume ⟨fun _ => some ⟨7, 0⟩⟩ 1 "203.0.113.5" windowSeconds =
      (.allowed,
       setRecord ⟨fun _ => some ⟨7, 0⟩⟩ "203.0.113.5" ⟨1, windowSeconds⟩) :=
  (c3_window_reset 1 ⟨fun _ => some ⟨7, 0⟩⟩ "203.0.113.5" windowSeconds
    ⟨7, 0⟩ (by decide) rfl (by decide)).1

/-- C4: a POST /api/humanize request from a client whose active window is
exhausted is answered 429 by the middleware with the limiter state
unchanged, for every request body and upstream oracle — the admission
decision precedes validation and any upstream call. -/
theorem c4_gate_before_validation (cap : Nat) (st : LimiterState)
    (ip : String) (now : Nat) (r : QuotaRecord)
    (hrec : st.records ip = some r)
    (hactive : now < r.windowStart + windowSeconds)
    (hfull : cap ≤ r.count) :
    ∀ (text : JSVal) (u : UpstreamResult) (iso : String),
      serverHandle cap st ip now (.postHumanize text) u iso =
        (⟨429, .err limitMsg⟩, st) := by
  intro text u iso
  have h := consume_active st cap ip now r.count r.windowStart
    (by rw [hrec]) hactive
  rw [if_neg (show ¬ (r.count < cap) from by omega)] at h
  rw [serverHandle_postHumanize, h]

theorem c4_witness :
    serverHandle 2 ⟨fun _ => some ⟨2, 100⟩⟩ "192.0.2.11" 200
        (.postHumanize (.vStr "perfectly valid text"))
        (.success (some "rewritten")) "2026-06-07T00:00:00.000Z" =
      (⟨429, .err limitMsg⟩, ⟨fun _ => some ⟨2, 100⟩⟩) :=
  c4_gate_before_validation 2 ⟨fun _ => some ⟨2, 100⟩⟩ "192.0.2.11" 200
    ⟨2, 100⟩ rfl (by decide) (by decide) (.vStr "perfectly valid text")
    (.success (some "rewritten")) "2026-06-07T00:00:00.000Z"

/-- C9 counterexample: the rate-limiting middleware is registered before
the /api/health route, so a client with an exhausted quota gets HTTP 429
from GET /api/health, refuting the claim that the health endpoint answers
200 for every request. -/
theorem c9_counterexample :
    (serverHandle 1 ⟨fun _ => some ⟨1, 0⟩⟩ "192.0.2.9" 5 .getHealth
        (.success none) "2026-03-04T05:06:07.000Z").1 =
      ⟨429, .err limitMsg⟩ ∧
    (serverHandle 1 ⟨fun _ => some ⟨1, 0⟩⟩ "192.0.2.9" 5 .getHealth
        (.success none) "2026-03-04T05:06:07.000Z").1.status ≠ 200 := by
  exact ⟨by decide, by decide⟩

/-- C9 amended: GET /api/health responds 200 with status "OK", service
"Humanivio API" and the current time's ISO-8601 rendering (modelled as the
abstract clock string `iso`) whenever the client's quota admits the
request; the health endpoint sits behind the rate limiter (and consumes a
quota point), so an exhausted client receives HTTP 429 instead. -/
theorem c9_health (cap : Nat) (st : LimiterState) (ip : String) (now : Nat)
    (u : UpstreamResult) (iso : String)
    (hallowed : (consume st cap ip now).1 = .allowed) :
    (serverHandle cap st ip now .getHealth u iso).1 =
      ⟨200, .health "OK" "Humanivio API" iso⟩ := by
  rcases hc : consume st cap ip now with ⟨g, st'⟩
  rw [hc] at hallowed
  have hg : g = .allowed := hallowed
  subst hg
  rw [serverHandle_getHealth, hc]

theorem c9_witness :
    (serverHandle 3 ⟨fun _ => none⟩ "192.0.2.10" 11 .getHealth
        (.failure none) "2026-05-06T07:08:09.000Z").1 =
      ⟨200, .health "OK" "Humanivio API" "2026-05-06T07:08:09.000Z"⟩ :=
  c9_health 3 ⟨fun _ => none⟩ "192.0.2.10" 11 (.failure none)
    "2026-05-06T07:08:09.000Z" (by decide)
